import Mathlib

/-! Verification of the roam-cli batch builder, local batch executor and
transport clients, shallowly embedded from the Go sources in
internal/api (batch.go, location.go, page_options.go, client.go). -/

namespace Roam

/-- Dynamic value, modelling the Go interface values stored in the
string-keyed maps that the batch builder and clients serialize.
`vmapSS` models a Go map from string to string, which is a distinct
dynamic type from a map from string to interface values. -/
inductive GoVal where
  | vstr (s : String)
  | vint (i : Int)
  | vbool (b : Bool)
  | vobj (fields : List (String × GoVal))
  | vmapSS (fields : List (String × String))
  | vnil
  deriving Repr

/-- Association lookup on the field list of an object, modelling Go map
indexing (maps built here are small literals with distinct keys). -/
def lookupField : List (String × GoVal) → String → Option GoVal
  | [], _ => none
  | (k, v) :: rest, key => if k = key then some v else lookupField rest key

/-- Go map assignment: replace the value at a key or append the binding. -/
def setField : List (String × GoVal) → String → GoVal → List (String × GoVal)
  | [], key, v => [(key, v)]
  | (k, w) :: rest, key, v =>
    if k = key then (key, v) :: rest else (k, w) :: setField rest key v

/-- Go type assertion of an object field to string: a missing key and a
non-string value both fail. -/
def getStr (v : GoVal) (key : String) : Option String :=
  match v with
  | .vobj fields =>
    match lookupField fields key with
    | some (.vstr s) => some s
    | _ => none
  | _ => none

/-- Go type assertion of an object field to a string-keyed map of
interface values. -/
def getObj (v : GoVal) (key : String) : Option GoVal :=
  match v with
  | .vobj fields =>
    match lookupField fields key with
    | some (.vobj inner) => some (.vobj inner)
    | _ => none
  | _ => none

/-- Plain field read, `nil` when missing, modelling a Go map index used
without a type assertion. -/
def getField (v : GoVal) (key : String) : GoVal :=
  match v with
  | .vobj fields =>
    match lookupField fields key with
    | some w => w
    | none => .vnil
  | _ => .vnil

/-- Base-ten value of a digit run. -/
def digitsToNat (ds : List Char) : Nat :=
  ds.foldl (fun acc c => acc * 10 + (c.toNat - 48)) 0

/-- Second half of the %d scan: a nonempty run of decimal digits is
read, remaining characters are ignored, and a value outside the 64-bit
signed range is a scan error. -/
def scanDigits (neg : Bool) (cs : List Char) : Option Int :=
  let ds := cs.takeWhile Char.isDigit
  if ds.isEmpty then none
  else
    let v : Int := if neg then -(digitsToNat ds : Int) else (digitsToNat ds : Int)
    if v < -(2 ^ 63 : Int) ∨ (2 ^ 63 : Int) ≤ v then none else some v

/-- The optional sign in front of the digit run. -/
def sscanfIntAux : List Char → Option Int
  | [] => none
  | c :: rest =>
    if c = '-' then scanDigits true rest
    else if c = '+' then scanDigits false rest
    else scanDigits false (c :: rest)

/-- Models fmt.Sscanf with the single verb %d applied to the string:
leading spaces are skipped, then an optional sign and a nonempty digit
run are read; trailing characters after the digits are ignored and do
not cause an error. -/
def sscanfInt (s : String) : Option Int :=
  sscanfIntAux (s.toList.dropWhile (fun c => c == ' ' || c == '\t'))

/-- BatchBuilder.parseUID from batch.go: the uid string is scanned with
fmt.Sscanf %d; when the scan succeeds with a negative value the integer
is emitted, otherwise the string passes through unchanged. -/
def parseUID (uid : String) : GoVal :=
  match sscanfInt uid with
  | some tempID => if tempID < 0 then .vint tempID else .vstr uid
  | none => .vstr uid

/-- models fmt.Sprintf "%d" of an int value. -/
def goFmtInt : Int → String
  | .ofNat n => Nat.repr n
  | .negSucc n => "-" ++ Nat.repr (n + 1)

/-- Location from location.go. -/
structure Location where
  ParentUID : String := ""
  PageTitle : String := ""
  DailyNoteDate : String := ""
  Order : GoVal := .vnil
  deriving Repr

/-- Location.ToMap from location.go. -/
def Location.ToMap (l : Location) : GoVal :=
  .vobj (
    if l.ParentUID ≠ "" then
      setField [("order", l.Order)] "parent-uid" (.vstr l.ParentUID)
    else if l.DailyNoteDate ≠ "" then
      setField [("order", l.Order)] "page-title"
        (.vmapSS [("daily-note-page", l.DailyNoteDate)])
    else if l.PageTitle ≠ "" then
      setField [("order", l.Order)] "page-title" (.vstr l.PageTitle)
    else [("order", l.Order)])

/-- PageOptions from page_options.go. -/
structure PageOptions where
  Title : String := ""
  UID : String := ""
  ChildrenViewType : String := ""
  deriving Repr, DecidableEq

/-- BlockOptions from block_options.go. -/
structure BlockOptions where
  Content : String := ""
  UID : String := ""
  Open : Option Bool := none
  Heading : Option Int := none
  TextAlign : String := ""
  ChildrenViewType : String := ""
  BlockViewType : String := ""
  Props : Option (List (String × GoVal)) := none
  deriving Repr

/-- BlockOptions.ApplyToMap from block_options.go: adds the optional
block properties to an existing map, the uid only when not present. -/
def BlockOptions.ApplyToMap (o : BlockOptions) (m0 : List (String × GoVal)) :
    List (String × GoVal) :=
  let m1 := if o.UID ≠ "" ∧ (lookupField m0 "uid").isNone then
    setField m0 "uid" (.vstr o.UID) else m0
  let m2 := match o.Open with
    | some bv => setField m1 "open" (.vbool bv)
    | none => m1
  let m3 := match o.Heading with
    | some h => setField m2 "heading" (.vint h)
    | none => m2
  let m4 := if o.TextAlign ≠ "" then
    setField m3 "text-align" (.vstr o.TextAlign) else m3
  let m5 := if o.ChildrenViewType ≠ "" then
    setField m4 "children-view-type" (.vstr o.ChildrenViewType) else m4
  let m6 := if o.BlockViewType ≠ "" then
    setField m5 "block-view-type" (.vstr o.BlockViewType) else m5
  match o.Props with
  | some p => setField m6 "props" (.vobj p)
  | none => m6

/-- BatchBuilder state from batch.go. -/
structure BatchBuilder where
  actions : List GoVal
  nextTempID : Int
  deriving Repr

/-- NewBatchBuilder from batch.go. -/
def NewBatchBuilder : BatchBuilder := { actions := [], nextTempID := -1 }

/-- allocateTempID from batch.go: returns the next tempid and the
builder with the counter decremented. -/
def BatchBuilder.allocateTempID (b : BatchBuilder) : Int × BatchBuilder :=
  (b.nextTempID, { b with nextTempID := b.nextTempID - 1 })

/-- BatchBuilder.buildLocation from batch.go: like Location.ToMap but
the parent uid goes through parseUID. -/
def BatchBuilder.buildLocation (loc : Location) : GoVal :=
  .vobj (
    if loc.ParentUID ≠ "" then
      setField [("order", loc.Order)] "parent-uid" (parseUID loc.ParentUID)
    else if loc.DailyNoteDate ≠ "" then
      setField [("order", loc.Order)] "page-title"
        (.vmapSS [("daily-note-page", loc.DailyNoteDate)])
    else if loc.PageTitle ≠ "" then
      setField [("order", loc.Order)] "page-title" (.vstr loc.PageTitle)
    else [("order", loc.Order)])

/-- BatchBuilder.CreatePage from batch.go: a tempid is allocated first;
an explicit UID then overrides both the wire value and the handle. -/
def BatchBuilder.CreatePage (b : BatchBuilder) (opts : PageOptions) :
    String × BatchBuilder :=
  let (tempID, b1) := b.allocateTempID
  let uidValue : GoVal := if opts.UID ≠ "" then .vstr opts.UID else .vint tempID
  let uidRef : String := if opts.UID ≠ "" then opts.UID else goFmtInt tempID
  let page0 := [("uid", uidValue), ("title", GoVal.vstr opts.Title)]
  let page1 := if opts.ChildrenViewType ≠ "" then
    setField page0 "children-view-type" (.vstr opts.ChildrenViewType) else page0
  let action := GoVal.vobj [("action", .vstr "create-page"), ("page", .vobj page1)]
  (uidRef, { b1 with actions := b1.actions ++ [action] })

/-- BatchBuilder.CreateBlock from batch.go. -/
def BatchBuilder.CreateBlock (b : BatchBuilder) (loc : Location)
    (opts : BlockOptions) : String × BatchBuilder :=
  let (tempID, b1) := b.allocateTempID
  let uidValue : GoVal := if opts.UID ≠ "" then .vstr opts.UID else .vint tempID
  let uidRef : String := if opts.UID ≠ "" then opts.UID else goFmtInt tempID
  let blockMap := opts.ApplyToMap
    [("uid", uidValue), ("string", GoVal.vstr opts.Content)]
  let action := GoVal.vobj
    [("action", .vstr "create-block"),
     ("location", BatchBuilder.buildLocation loc),
     ("block", .vobj blockMap)]
  (uidRef, { b1 with actions := b1.actions ++ [action] })

/-- BatchBuilder.UpdateBlock from batch.go. -/
def BatchBuilder.UpdateBlock (b : BatchBuilder) (uid : String)
    (opts : BlockOptions) : BatchBuilder :=
  let block0 := [("uid", parseUID uid)]
  let block1 := if opts.Content ≠ "" then
    setField block0 "string" (.vstr opts.Content) else block0
  let blockMap := opts.ApplyToMap block1
  let action := GoVal.vobj [("action", .vstr "update-block"), ("block", .vobj blockMap)]
  { b with actions := b.actions ++ [action] }

/-- BatchBuilder.UpdatePage from batch.go. -/
def BatchBuilder.UpdatePage (b : BatchBuilder) (uid : String)
    (opts : PageOptions) : BatchBuilder :=
  let page0 := [("uid", parseUID uid)]
  let page1 := if opts.Title ≠ "" then
    setField page0 "title" (.vstr opts.Title) else page0
  let page2 := if opts.ChildrenViewType ≠ "" then
    setField page1 "children-view-type" (.vstr opts.ChildrenViewType) else page1
  let action := GoVal.vobj [("action", .vstr "update-page"), ("page", .vobj page2)]
  { b with actions := b.actions ++ [action] }

/-- BatchBuilder.MoveBlock from batch.go. -/
def BatchBuilder.MoveBlock (b : BatchBuilder) (uid : String) (loc : Location) :
    BatchBuilder :=
  let action := GoVal.vobj
    [("action", .vstr "move-block"),
     ("location", BatchBuilder.buildLocation loc),
     ("block", .vobj [("uid", parseUID uid)])]
  { b with actions := b.actions ++ [action] }

/-- BatchBuilder.DeleteBlock from batch.go. -/
def BatchBuilder.DeleteBlock (b : BatchBuilder) (uid : String) : BatchBuilder :=
  let action := GoVal.vobj
    [("action", .vstr "delete-block"), ("block", .vobj [("uid", parseUID uid)])]
  { b with actions := b.actions ++ [action] }

/-- BatchBuilder.DeletePage from batch.go. -/
def BatchBuilder.DeletePage (b : BatchBuilder) (uid : String) : BatchBuilder :=
  let action := GoVal.vobj
    [("action", .vstr "delete-page"), ("page", .vobj [("uid", parseUID uid)])]
  { b with actions := b.actions ++ [action] }

/-- BatchBuilder.Build from batch.go: returns the accumulated actions. -/
def BatchBuilder.Build (b : BatchBuilder) : List GoVal := b.actions

/-- A call dispatched by the local batch replay to one of the
single-action LocalClient methods from page_options.go. Each method
only forwards its arguments to the desktop app, so the call record is
the whole observable effect. -/
inductive LocalCall where
  | createPage (title : String)
  | createBlock (parentUID content : String) (order : GoVal)
  | updateBlock (uid content : String)
  | moveBlock (uid parentUID : String) (order : GoVal)
  | deleteBlock (uid : String)
  | deletePage (uid : String)
  deriving Repr

/-- The errors LocalClient.ExecuteBatch can return. The first nine model
the fmt.Errorf validation messages, each of which embeds the 0-based
action index; `apiErr` models an error returned by the dispatched
single-action call, which ExecuteBatch returns unchanged. -/
inductive BatchErr where
  | invalidActionType (i : Nat)
  | invalidPageData (i : Nat)
  | missingPageTitle (i : Nat)
  | invalidBlockData (i : Nat)
  | invalidLocationData (i : Nat)
  | missingBlockUID (i : Nat)
  | missingParentUID (i : Nat)
  | missingPageUID (i : Nat)
  | unknownActionType (i : Nat) (t : String)
  | apiErr (e : String)
  deriving Repr, DecidableEq

/-- The 0-based action index embedded in the error, when there is one:
only the validation errors carry it, an error from a dispatched call
does not. -/
def BatchErr.indexOf : BatchErr → Option Nat
  | .invalidActionType i => some i
  | .invalidPageData i => some i
  | .missingPageTitle i => some i
  | .invalidBlockData i => some i
  | .invalidLocationData i => some i
  | .missingBlockUID i => some i
  | .missingParentUID i => some i
  | .missingPageUID i => some i
  | .unknownActionType i _ => some i
  | .apiErr _ => none

/-- One arm of the switch in LocalClient.ExecuteBatch: validates record
number `i` and produces the LocalCall to dispatch. Mirrors the field
extraction of page_options.go, including the defaulting of a missing or
non-string content and parent uid to the empty string in the
create-block arm. -/
def execAction (i : Nat) (action : GoVal) : Except BatchErr LocalCall :=
  match getStr action "action" with
  | none => .error (.invalidActionType i)
  | some actionType =>
    if actionType = "create-page" then
      match getObj action "page" with
      | none => .error (.invalidPageData i)
      | some page =>
        match getStr page "title" with
        | none => .error (.missingPageTitle i)
        | some title => .ok (.createPage title)
    else if actionType = "create-block" then
      match getObj action "block" with
      | none => .error (.invalidBlockData i)
      | some block =>
        match getObj action "location" with
        | none => .error (.invalidLocationData i)
        | some location =>
          let content := (getStr block "string").getD ""
          let parentUID := (getStr location "parent-uid").getD ""
          .ok (.createBlock parentUID content (getField location "order"))
    else if actionType = "update-block" then
      match getObj action "block" with
      | none => .error (.invalidBlockData i)
      | some block =>
        match getStr block "uid" with
        | none => .error (.missingBlockUID i)
        | some uid => .ok (.updateBlock uid ((getStr block "string").getD ""))
    else if actionType = "move-block" then
      match getObj action "block" with
      | none => .error (.invalidBlockData i)
      | some block =>
        match getObj action "location" with
        | none => .error (.invalidLocationData i)
        | some location =>
          match getStr block "uid" with
          | none => .error (.missingBlockUID i)
          | some uid =>
            match getStr location "parent-uid" with
            | none => .error (.missingParentUID i)
            | some parentUID =>
              .ok (.moveBlock uid parentUID (getField location "order"))
    else if actionType = "delete-block" then
      match getObj action "block" with
      | none => .error (.invalidBlockData i)
      | some block =>
        match getStr block "uid" with
        | none => .error (.missingBlockUID i)
        | some uid => .ok (.deleteBlock uid)
    else if actionType = "delete-page" then
      match getObj action "page" with
      | none => .error (.invalidPageData i)
      | some page =>
        match getStr page "uid" with
        | none => .error (.missingPageUID i)
        | some uid => .ok (.deletePage uid)
    else .error (.unknownActionType i actionType)

/-- The sequential replay loop of LocalClient.ExecuteBatch over the
remaining records, `i` being the index of the first one. `api` is the
desktop-app backend answering each dispatched call; its result type
shows that the single-action methods return only an error, never the
created UID, so the loop has nothing it could record in a tempid map.
Returns the calls dispatched in order and the overall outcome. -/
def runBatch (api : LocalCall → Except String Unit) :
    Nat → List GoVal → List LocalCall × Except BatchErr Unit
  | _, [] => ([], .ok ())
  | i, action :: rest =>
    match execAction i action with
    | .error e => ([], .error e)
    | .ok call =>
      match api call with
      | .error e => ([call], .error (.apiErr e))
      | .ok _ =>
        (call :: (runBatch api (i + 1) rest).1, (runBatch api (i + 1) rest).2)

/-- LocalClient.ExecuteBatch from page_options.go: sequential replay of
the built actions, starting at index 0. -/
def ExecuteBatchLocal (api : LocalCall → Except String Unit)
    (batch : BatchBuilder) : List LocalCall × Except BatchErr Unit :=
  runBatch api 0 batch.Build

/-- A backend on which every dispatched call succeeds. -/
def apiOk : LocalCall → Except String Unit := fun _ => .ok ()

/-- The parse outcome of the local response body, as seen by
LocalClient.callCtx: json.Unmarshal either fails or yields the
localResponse envelope fields. -/
inductive ParsedBody where
  | malformed
  | parsed (success : Bool) (error : String) (result : String)
  deriving Repr, DecidableEq

/-- The errors LocalClient.callCtx can produce from a received
response. Only `localAPI` is the LocalAPIError type; the other three
model plain fmt.Errorf transport errors. -/
inductive LocalCallErr where
  | localAPI (msg : String)
  | statusWithBody (status : Nat) (body : String)
  | parseFailed
  | statusOnly (status : Nat)
  deriving Repr, DecidableEq

/-- Go type test of the returned error against LocalAPIError. -/
def isLocalAPIError : LocalCallErr → Bool
  | .localAPI _ => true
  | _ => false

/-- LocalAPIError.IsResponseTimeout from page_options.go, on the
message the error carries. -/
def IsResponseTimeout (msg : String) : Bool := msg == "Response timeout"

/-- The response-handling tail of LocalClient.callCtx from
page_options.go: given the HTTP status, the raw body and its parse
outcome, produce the call result exactly in source order (malformed
body first, then the success flag, then the HTTP status). -/
def handleLocalResponse (status : Nat) (body : String) (pb : ParsedBody) :
    Except LocalCallErr String :=
  match pb with
  | .malformed =>
    if status ≠ 200 then .error (.statusWithBody status body)
    else .error .parseFailed
  | .parsed success err result =>
    if success = false then .error (.localAPI err)
    else if status ≠ 200 then
      if err ≠ "" then .error (.localAPI err)
      else .error (.statusOnly status)
    else .ok result

/-- Strip an expected literal run of characters. -/
def stripLit : List Char → List Char → Option (List Char)
  | [], cs => some cs
  | p :: ps, c :: cs => if c = p then stripLit ps cs else none
  | _ :: _, [] => none

/-- The tail of the Go peer pattern after the captured peer name: a
lazy gap of non-newline characters, a colon, and a captured nonempty
digit run. Yields the digits after the earliest qualifying colon. -/
def findPort : List Char → Option String
  | [] => none
  | ':' :: rest =>
    let ds := rest.takeWhile Char.isDigit
    if ds.isEmpty then findPort rest else some ds.asString
  | '\n' :: _ => none
  | _ :: rest => findPort rest

/-- The peer pattern anchored at the head of the character list: the
literal run followed by at least one digit (greedy), then the lazy gap
and the port. Yields the two capture groups. -/
def matchPeerAt (cs : List Char) : Option (String × String) :=
  match stripLit "https://peer-".toList cs with
  | none => none
  | some rest =>
    let ds := rest.takeWhile Char.isDigit
    if ds.isEmpty then none
    else
      match findPort (rest.dropWhile Char.isDigit) with
      | none => none
      | some port => some ("peer-" ++ ds.asString, port)

/-- Leftmost-first search for the Go regular expression used by
Client.callCtx on the Location header, yielding the peer and port
capture groups of the first match. -/
def findPeer : List Char → Option (String × String)
  | [] => none
  | c :: rest =>
    match matchPeerAt (c :: rest) with
    | some r => some r
    | none => findPeer rest

/-- regexp.FindStringSubmatch of the peer pattern on a location
header, reduced to the two capture groups. -/
def parsePeerRedirect (location : String) : Option (String × String) :=
  findPeer location.toList

/-- The rewritten base URL of client.go, built from the two capture
groups of the peer pattern. -/
def peerBase (peer port : String) : String :=
  "https://" ++ peer ++ ".api.roamresearch.com:" ++ port

/-- An HTTP response as Client.callCtx inspects it: the status code,
the Location header (empty when absent) and the body. -/
structure HttpResp where
  status : Nat
  location : String
  body : String
  deriving Repr, DecidableEq

/-- The errors Client.callCtx can produce from a received response,
mirroring the status switch of client.go. `outOfFuel` marks a run of
the model that exhausted its redirect-recursion budget, which the Go
code would spend looping. -/
inductive CloudErr where
  | redirectNoLocation
  | redirectParseFail (location : String)
  | auth
  | rateLimit (msg : String)
  | validation (msg : String)
  | serverErr (msg : String)
  | apiErr (status : Nat) (msg : String)
  | outOfFuel
  deriving Repr, DecidableEq

/-- Go type test of an error against RateLimitError, as used by
Client.callWithRetry. -/
def isRateLimitErr : CloudErr → Bool
  | .rateLimit _ => true
  | _ => false

/-- The cloud Client state that callCtx reads and writes: the base URL,
the graph name and the per-graph redirect cache. -/
structure Client where
  baseURL : String
  graphName : String
  redirectCache : List (String × String)
  deriving Repr, DecidableEq

/-- Lookup in the redirect cache. -/
def lookupAssoc : List (String × String) → String → Option String
  | [], _ => none
  | (k, v) :: rest, key => if k = key then some v else lookupAssoc rest key

/-- Store in the redirect cache. -/
def setAssoc : List (String × String) → String → String → List (String × String)
  | [], key, v => [(key, v)]
  | (k, w) :: rest, key, v =>
    if k = key then (key, v) :: rest else (k, w) :: setAssoc rest key v

/-- The base URL callCtx uses: the cached redirect URL for the graph
when present, the configured base URL otherwise. -/
def effectiveBase (c : Client) : String :=
  match lookupAssoc c.redirectCache c.graphName with
  | some cached => cached
  | none => c.baseURL

/-- Client.callCtx from client.go over a network oracle `net` mapping a
request URL to its response. On a 307 or 308 response the Location
header is matched against the peer pattern, the rewritten URL is cached
for the graph and the call recurses; the Go recursion is unbounded, so
the model carries fuel. Returns the updated client, the requested URLs
in order, and the outcome. -/
def callCtxCloud (net : String → HttpResp) :
    Nat → Client → String → Client × List String × Except CloudErr String
  | 0, c, _ => (c, [], .error .outOfFuel)
  | fuel + 1, c, path =>
    let url := effectiveBase c ++ path
    let resp := net url
    if resp.status = 307 ∨ resp.status = 308 then
      if resp.location = "" then (c, [url], .error .redirectNoLocation)
      else
        match parsePeerRedirect resp.location with
        | none => (c, [url], .error (.redirectParseFail resp.location))
        | some (peer, port) =>
          let redirectURL := peerBase peer port
          let c1 := { c with
            redirectCache := setAssoc c.redirectCache c.graphName redirectURL }
          let (c2, trace, r) := callCtxCloud net fuel c1 path
          (c2, url :: trace, r)
    else if resp.status = 200 then (c, [url], .ok resp.body)
    else if resp.status = 401 then (c, [url], .error .auth)
    else if resp.status = 429 then (c, [url], .error (.rateLimit resp.body))
    else if resp.status = 400 then (c, [url], .error (.validation resp.body))
    else if resp.status = 500 then (c, [url], .error (.serverErr resp.body))
    else (c, [url], .error (.apiErr resp.status resp.body))

/-- MaxRetries from client.go. -/
def MaxRetries : Nat := 3

/-- InitialBackoff from client.go, in seconds. -/
def InitialBackoffSec : Nat := 10

/-- The loop body of Client.callWithRetry from client.go, the fuel
being the number of loop iterations still permitted by the condition
of the for loop, so fuel plus attempt is always MaxRetries plus one.
`responses` gives the outcome of the wrapped call on each attempt.
Fuel zero is the loop condition failing, which returns the exhaustion
RateLimitError. The source guard on sleeping, attempt strictly below
MaxRetries, is spelled out over the fuel: with at least two permitted
iterations left a rate-limited attempt sleeps the backoff, doubles it
and continues, while in the last permitted iteration it falls out of
the loop into the exhaustion return; slept durations are accumulated
in order. Returns the outcome, the number of attempts made and the
sleeps. -/
def retryLoop (responses : Nat → Except CloudErr String) :
    Nat → Nat → Nat → List Nat → Except CloudErr String × Nat × List Nat
  | 0, attempt, _, sleeps =>
    (.error (.rateLimit "rate limit exceeded after retries"), attempt, sleeps)
  | 1, attempt, _, sleeps =>
    match responses attempt with
    | .ok resp => (.ok resp, attempt + 1, sleeps)
    | .error e =>
      if isRateLimitErr e then
        (.error (.rateLimit "rate limit exceeded after retries"),
          attempt + 1, sleeps)
      else (.error e, attempt + 1, sleeps)
  | fuel + 2, attempt, backoff, sleeps =>
    match responses attempt with
    | .ok resp => (.ok resp, attempt + 1, sleeps)
    | .error e =>
      if isRateLimitErr e then
        retryLoop responses (fuel + 1) (attempt + 1) (backoff * 2)
          (sleeps ++ [backoff])
      else (.error e, attempt + 1, sleeps)

/-- Client.callWithRetry from client.go: attempts start at zero with
the initial backoff and run while attempt is at most MaxRetries. -/
def callWithRetry (responses : Nat → Except CloudErr String) :
    Except CloudErr String × Nat × List Nat :=
  retryLoop responses (MaxRetries + 1) 0 InitialBackoffSec []

/-- Whether the serialized object carries the key. -/
def hasKey (v : GoVal) (key : String) : Bool :=
  match v with
  | .vobj fields => (lookupField fields key).isSome
  | _ => false

/-- The most recently appended action record of a builder. -/
def lastBuilt (b : BatchBuilder) : GoVal := b.actions.getLast?.getD .vnil

/-- Spec-side predicate, following the words of the specification: a
numeric negative-integer string is a minus sign followed by decimal
digits denoting a nonzero value. -/
def isNegIntString (s : String) : Bool :=
  match s.toList with
  | [] => false
  | c :: ds =>
    c == '-' && !ds.isEmpty && ds.all Char.isDigit && decide (digitsToNat ds ≠ 0)

/-- The integer denoted by a numeric negative-integer string. -/
def negIntVal (s : String) : Int := -(digitsToNat (s.toList.drop 1) : Int)

section Claims

/-- C9: Location serialization produces exactly one addressing key per
mode: a Location with only PageTitle maps to page-title bound to the
title and carries no parent-uid key; a Location with only DailyNoteDate
maps to page-title bound to the nested daily-note-page map; a Location
with ParentUID maps to a parent-uid key; the order value is carried
through unchanged in every case. -/
theorem location_tomap_modes :
    (∀ (title : String) (o : GoVal), title ≠ "" →
      getField (Location.ToMap { PageTitle := title, Order := o }) "page-title"
          = .vstr title ∧
      hasKey (Location.ToMap { PageTitle := title, Order := o }) "parent-uid"
          = false) ∧
    (∀ (d : String) (o : GoVal), d ≠ "" →
      getField (Location.ToMap { DailyNoteDate := d, Order := o }) "page-title"
          = .vmapSS [("daily-note-page", d)] ∧
      hasKey (Location.ToMap { DailyNoteDate := d, Order := o }) "parent-uid"
          = false) ∧
    (∀ l : Location, l.ParentUID ≠ "" →
      getField l.ToMap "parent-uid" = .vstr l.ParentUID) ∧
    (∀ l : Location, getField l.ToMap "order" = l.Order) := by
  refine ⟨?_, ?_, ?_, ?_⟩
  · intro title o ht
    simp [Location.ToMap, getField, hasKey, lookupField, setField, ht]
  · intro d o hd
    simp [Location.ToMap, getField, hasKey, lookupField, setField, hd]
  · intro l hp
    simp [Location.ToMap, getField, lookupField, setField, hp]
  · intro l
    by_cases hp : l.ParentUID = "" <;> by_cases hd : l.DailyNoteDate = "" <;>
      by_cases ht : l.PageTitle = "" <;>
      simp [Location.ToMap, getField, lookupField, setField, hp, hd, ht]

/-- Witness for location_tomap_modes at concrete locations. -/
theorem location_tomap_modes_witness :
    getField (Location.ToMap { PageTitle := "X", Order := .vstr "last" })
        "page-title" = .vstr "X" ∧
    getField (Location.ToMap { DailyNoteDate := "01-15-2025", Order := .vint 0 })
        "page-title" = .vmapSS [("daily-note-page", "01-15-2025")] :=
  ⟨(location_tomap_modes.1 "X" (.vstr "last") (by decide)).1,
   (location_tomap_modes.2.1 "01-15-2025" (.vint 0) (by decide)).1⟩

/-- C10: when several addressing modes are set, serialization silently
emits exactly one addressing key with the fixed priority ParentUID over
DailyNoteDate over PageTitle, identically in Location.ToMap and in the
batch builder buildLocation (the latter passing the parent uid through
parseUID); with at least one mode set, exactly one of parent-uid and
page-title is present. -/
theorem location_priority :
    (∀ l : Location, l.ParentUID ≠ "" →
      getField l.ToMap "parent-uid" = .vstr l.ParentUID ∧
      hasKey l.ToMap "page-title" = false ∧
      getField (BatchBuilder.buildLocation l) "parent-uid"
          = parseUID l.ParentUID ∧
      hasKey (BatchBuilder.buildLocation l) "page-title" = false) ∧
    (∀ l : Location, l.ParentUID = "" → l.DailyNoteDate ≠ "" →
      getField l.ToMap "page-title" = .vmapSS [("daily-note-page", l.DailyNoteDate)] ∧
      hasKey l.ToMap "parent-uid" = false ∧
      getField (BatchBuilder.buildLocation l) "page-title"
          = .vmapSS [("daily-note-page", l.DailyNoteDate)] ∧
      hasKey (BatchBuilder.buildLocation l) "parent-uid" = false) ∧
    (∀ l : Location, l.ParentUID = "" → l.DailyNoteDate = "" → l.PageTitle ≠ "" →
      getField l.ToMap "page-title" = .vstr l.PageTitle ∧
      hasKey l.ToMap "parent-uid" = false ∧
      getField (BatchBuilder.buildLocation l) "page-title" = .vstr l.PageTitle ∧
      hasKey (BatchBuilder.buildLocation l) "parent-uid" = false) ∧
    (∀ l : Location, (l.ParentUID ≠ "" ∨ l.DailyNoteDate ≠ "" ∨ l.PageTitle ≠ "") →
      (hasKey l.ToMap "parent-uid" = true ∧ hasKey l.ToMap "page-title" = false) ∨
      (hasKey l.ToMap "parent-uid" = false ∧ hasKey l.ToMap "page-title" = true)) := by
  refine ⟨?_, ?_, ?_, ?_⟩
  · intro l hp
    simp [Location.ToMap, BatchBuilder.buildLocation, getField, hasKey,
      lookupField, setField, hp]
  · intro l hp hd
    simp [Location.ToMap, BatchBuilder.buildLocation, getField, hasKey,
      lookupField, setField, hp, hd]
  · intro l hp hd ht
    simp [Location.ToMap, BatchBuilder.buildLocation, getField, hasKey,
      lookupField, setField, hp, hd, ht]
  · intro l hmode
    by_cases hp : l.ParentUID = "" <;> by_cases hd : l.DailyNoteDate = "" <;>
      by_cases ht : l.PageTitle = "" <;>
      simp [Location.ToMap, getField, hasKey, lookupField, setField,
        hp, hd, ht] at hmode ⊢

/-- Witness for location_priority: a location with all three modes set
serializes with the parent-uid key only. -/
theorem location_priority_witness :
    getField (Location.ToMap
        { ParentUID := "abc", PageTitle := "X", DailyNoteDate := "01-15-2025" })
      "parent-uid" = .vstr "abc" ∧
    hasKey (Location.ToMap
        { ParentUID := "abc", PageTitle := "X", DailyNoteDate := "01-15-2025" })
      "page-title" = false :=
  ⟨(location_priority.1
      { ParentUID := "abc", PageTitle := "X", DailyNoteDate := "01-15-2025" }
      (by decide)).1,
   (location_priority.1
      { ParentUID := "abc", PageTitle := "X", DailyNoteDate := "01-15-2025" }
      (by decide)).2.1⟩

end Claims

section Helpers

/-- Setting one key leaves lookups of a different key unchanged. -/
theorem lookupField_setField_ne (m : List (String × GoVal)) (k k' : String)
    (v : GoVal) (h : k ≠ k') :
    lookupField (setField m k v) k' = lookupField m k' := by
  induction m with
  | nil => simp [setField, lookupField, h]
  | cons kv rest ih =>
    obtain ⟨k0, v0⟩ := kv
    by_cases h0 : k0 = k
    · subst h0
      simp [setField, lookupField, h]
    · simp [setField, lookupField, h0]
      by_cases h1 : k0 = k' <;> simp [h1, ih]

/-- ApplyToMap never touches an existing uid entry. -/
theorem applyToMap_uid_present (o : BlockOptions) (m : List (String × GoVal))
    (h : (lookupField m "uid").isSome) :
    lookupField (o.ApplyToMap m) "uid" = lookupField m "uid" := by
  unfold BlockOptions.ApplyToMap
  rw [if_neg (by
    rintro ⟨-, h2⟩
    rw [Option.isNone_iff_eq_none] at h2
    rw [h2] at h
    simp at h)]
  cases o.Open <;> cases o.Heading <;> cases o.Props <;>
    simp only [] <;>
    (repeat' first
      | rw [lookupField_setField_ne _ _ _ _ (by decide)]
      | split) <;>
    rfl

/-- The last action of a builder that just appended one. -/
theorem lastBuilt_mk (acts : List GoVal) (a : GoVal) (n : Int) :
    lastBuilt { actions := acts ++ [a], nextTempID := n } = a := by
  simp [lastBuilt]

end Helpers

section Claims2

/-- One builder create call: either CreatePage with its options or
CreateBlock with its location and options. -/
def CreateStep : Type := PageOptions ⊕ Location × BlockOptions

/-- The explicit UID option of a create call. -/
def stepUID : CreateStep → String
  | .inl opts => opts.UID
  | .inr (_, opts) => opts.UID

/-- Run a sequence of create calls against a builder, collecting the
returned handles in call order. -/
def runCreates : List CreateStep → BatchBuilder → List String × BatchBuilder
  | [], b => ([], b)
  | step :: rest, b =>
    let hb := match step with
      | .inl opts => b.CreatePage opts
      | .inr (loc, opts) => b.CreateBlock loc opts
    let hsb := runCreates rest hb.2
    (hb.1 :: hsb.1, hsb.2)

theorem negSucc_sub_one (n : Nat) : Int.negSucc n - 1 = Int.negSucc (n + 1) := by
  rw [Int.negSucc_eq, Int.negSucc_eq]
  push_cast
  ring

theorem dashRepr_congr (a b : Nat) (h : a = b) :
    "-" ++ Nat.repr a = "-" ++ Nat.repr b := by
  rw [h]

/-- A CreatePage call without an explicit UID hands back the printed
current tempid and decrements the counter. -/
theorem createPage_noUID (b : BatchBuilder) (opts : PageOptions)
    (h : opts.UID = "") :
    (b.CreatePage opts).1 = goFmtInt b.nextTempID ∧
    (b.CreatePage opts).2.nextTempID = b.nextTempID - 1 := by
  simp [BatchBuilder.CreatePage, BatchBuilder.allocateTempID, h]

/-- A CreateBlock call without an explicit UID hands back the printed
current tempid and decrements the counter. -/
theorem createBlock_noUID (b : BatchBuilder) (loc : Location)
    (opts : BlockOptions) (h : opts.UID = "") :
    (b.CreateBlock loc opts).1 = goFmtInt b.nextTempID ∧
    (b.CreateBlock loc opts).2.nextTempID = b.nextTempID - 1 := by
  simp [BatchBuilder.CreateBlock, BatchBuilder.allocateTempID, h]

/-- Handles of a run of create calls without explicit UIDs, starting
from any negative counter value. -/
theorem runCreates_handles (steps : List CreateStep) :
    ∀ (t : Nat) (b : BatchBuilder), b.nextTempID = Int.negSucc t →
    (∀ s ∈ steps, stepUID s = "") →
    (runCreates steps b).1 =
      (List.range steps.length).map (fun k => "-" ++ Nat.repr (t + 1 + k)) ∧
    (runCreates steps b).2.nextTempID = Int.negSucc (t + steps.length) := by
  induction steps with
  | nil =>
    intro t b hb _
    simp [runCreates, hb]
  | cons step rest ih =>
    intro t b hb hu
    have hstep : stepUID step = "" := hu step (by simp)
    have hrest : ∀ s ∈ rest, stepUID s = "" := fun s hs => hu s (by simp [hs])
    obtain ⟨hb1, hb2⟩ : (match step with
        | .inl opts => b.CreatePage opts
        | .inr (loc, opts) => b.CreateBlock loc opts).1 = goFmtInt b.nextTempID ∧
        (match step with
        | .inl opts => b.CreatePage opts
        | .inr (loc, opts) => b.CreateBlock loc opts).2.nextTempID
          = b.nextTempID - 1 := by
      match step with
      | .inl opts => exact createPage_noUID b opts hstep
      | .inr (loc, opts) => exact createBlock_noUID b loc opts hstep
    have hnext : (match step with
        | .inl opts => b.CreatePage opts
        | .inr (loc, opts) => b.CreateBlock loc opts).2.nextTempID
          = Int.negSucc (t + 1) := by
      rw [hb2, hb, negSucc_sub_one]
    obtain ⟨ih1, ih2⟩ := ih (t + 1) _ hnext hrest
    refine ⟨?_, ?_⟩
    · show _ :: _ = _
      rw [hb1, ih1, hb, List.length_cons, List.range_succ_eq_map,
        List.map_cons, List.map_map]
      refine congrArg₂ _ ?_ ?_
      · simp [goFmtInt]
      · refine List.map_congr_left fun k _ => ?_
        simp only [Function.comp]
        exact dashRepr_congr _ _ (by omega)
    · show (runCreates rest _).2.nextTempID = _
      rw [ih2]
      simp only [List.length_cons]
      congr 1
      omega

/-- C8: N consecutive CreatePage or CreateBlock calls without explicit
UIDs on a fresh builder return exactly the handles from "-1" down to
"-N" in call order, the counter starting at -1 and decreasing by one
per allocation (the length bound keeps the run inside the value range
of the 64-bit Go counter, where the integer model is exact). -/
theorem tempid_handles (steps : List CreateStep)
    (_hN : steps.length < 2 ^ 63)
    (hu : ∀ s ∈ steps, stepUID s = "") :
    (runCreates steps NewBatchBuilder).1 =
      (List.range steps.length).map (fun k => "-" ++ Nat.repr (k + 1)) ∧
    (runCreates steps NewBatchBuilder).2.nextTempID
      = -(1 + (steps.length : Int)) := by
  obtain ⟨h1, h2⟩ := runCreates_handles steps 0 NewBatchBuilder rfl hu
  refine ⟨?_, ?_⟩
  · rw [h1]
    refine List.map_congr_left fun k _ => ?_
    exact dashRepr_congr _ _ (by omega)
  · rw [h2, Int.negSucc_eq]
    push_cast
    ring

/-- Concrete three-step run for the C8 witness. -/
def steps3 : List CreateStep :=
  [Sum.inl {}, Sum.inr ({}, { Content := "c" }), Sum.inl { Title := "T" }]

/-- Witness for tempid_handles: three creates yield -1, -2, -3. -/
theorem tempid_handles_witness :
    (runCreates steps3 NewBatchBuilder).1 = ["-1", "-2", "-3"] := by
  have h := tempid_handles steps3 (by decide)
    (by intro s hs; fin_cases hs <;> rfl)
  rw [h.1]
  rfl

/-- C2 counterexample: a CreatePage with an explicit UID does consume a
tempid. The handle is the UID verbatim and the wire uid is the UID
string, but the very next create without an explicit UID returns "-2",
where the claim demands "-1". -/
theorem explicit_uid_consumes_tempid :
    (NewBatchBuilder.CreatePage { Title := "T", UID := "abc" }).1 = "abc" ∧
    getField (getField (lastBuilt
        (NewBatchBuilder.CreatePage { Title := "T", UID := "abc" }).2) "page")
      "uid" = .vstr "abc" ∧
    ((NewBatchBuilder.CreatePage { Title := "T", UID := "abc" }).2.CreatePage
        { Title := "U" }).1 = "-2" ∧
    ((NewBatchBuilder.CreatePage { Title := "T", UID := "abc" }).2.CreatePage
        { Title := "U" }).1 ≠ "-1" :=
  ⟨rfl, rfl, rfl, by decide⟩

/-- C2 amended: a Create call with a non-empty explicit UID returns the
UID verbatim as the handle and uses it verbatim as the wire uid value,
but the tempid counter is still decremented, so a subsequent create
without an explicit UID on a fresh builder returns "-2", not "-1". -/
theorem explicit_uid_passthrough :
    (∀ (b : BatchBuilder) (opts : PageOptions), opts.UID ≠ "" →
      (b.CreatePage opts).1 = opts.UID ∧
      getField (getField (lastBuilt (b.CreatePage opts).2) "page") "uid"
        = .vstr opts.UID ∧
      (b.CreatePage opts).2.nextTempID = b.nextTempID - 1) ∧
    (∀ (b : BatchBuilder) (loc : Location) (opts : BlockOptions), opts.UID ≠ "" →
      (b.CreateBlock loc opts).1 = opts.UID ∧
      getField (getField (lastBuilt (b.CreateBlock loc opts).2) "block") "uid"
        = .vstr opts.UID ∧
      (b.CreateBlock loc opts).2.nextTempID = b.nextTempID - 1) ∧
    ((NewBatchBuilder.CreatePage { Title := "T", UID := "abc" }).2.CreatePage
        { Title := "U" }).1 = "-2" := by
  refine ⟨?_, ?_, rfl⟩
  · intro b opts h
    refine ⟨by simp [BatchBuilder.CreatePage, BatchBuilder.allocateTempID, h],
      ?_, by simp [BatchBuilder.CreatePage, BatchBuilder.allocateTempID, h]⟩
    simp only [BatchBuilder.CreatePage, BatchBuilder.allocateTempID]
    rw [lastBuilt_mk]
    by_cases hc : opts.ChildrenViewType = "" <;>
      simp [getField, lookupField, setField, h, hc]
  · intro b loc opts h
    have huid : lookupField
        (BlockOptions.ApplyToMap opts
          [("uid", GoVal.vstr opts.UID), ("string", GoVal.vstr opts.Content)])
        "uid" = some (.vstr opts.UID) := by
      rw [applyToMap_uid_present opts _ (by simp [lookupField])]
      simp [lookupField]
    refine ⟨by simp [BatchBuilder.CreateBlock, BatchBuilder.allocateTempID, h],
      ?_, by simp [BatchBuilder.CreateBlock, BatchBuilder.allocateTempID, h]⟩
    simp [BatchBuilder.CreateBlock, BatchBuilder.allocateTempID, lastBuilt_mk,
      getField, lookupField, h, huid]

/-- Witness for explicit_uid_passthrough. -/
theorem explicit_uid_passthrough_witness :
    (NewBatchBuilder.CreatePage { Title := "T", UID := "xyz" }).1 = "xyz" ∧
    (NewBatchBuilder.CreatePage { Title := "T", UID := "xyz" }).2.nextTempID
      = -2 :=
  ⟨(explicit_uid_passthrough.1 NewBatchBuilder
      { Title := "T", UID := "xyz" } (by decide)).1,
   (explicit_uid_passthrough.1 NewBatchBuilder
      { Title := "T", UID := "xyz" } (by decide)).2.2⟩

end Claims2

section Claims3

theorem takeWhile_all_digits (ds : List Char) (h : ds.all Char.isDigit = true) :
    ds.takeWhile Char.isDigit = ds := by
  induction ds with
  | nil => rfl
  | cons c cs ih =>
    simp only [List.all_cons, Bool.and_eq_true] at h
    simp [List.takeWhile_cons, h.1, ih h.2]

/-- A genuine numeric negative-integer string within the 64-bit value
range scans to its negative value and is therefore emitted as the
integer. -/
theorem parseUID_negIntString (s : String) (h : isNegIntString s = true)
    (hrange : digitsToNat (s.toList.drop 1) ≤ 2 ^ 63) :
    parseUID s = .vint (negIntVal s) := by
  unfold isNegIntString at h
  match hs : s.toList with
  | [] => rw [hs] at h; simp at h
  | c :: cs =>
    rw [hs] at h
    simp only [Bool.and_eq_true, decide_eq_true_eq, beq_iff_eq] at h
    obtain ⟨⟨⟨hdash, hne⟩, hdig⟩, hnz⟩ := h
    subst hdash
    rw [hs] at hrange
    simp only [List.drop_succ_cons, List.drop_zero] at hrange
    have hne2 : cs.isEmpty = false := by
      cases cs with
      | nil => simp at hne
      | cons a as => rfl
    have hv1 : ¬(-(digitsToNat cs : Int) < -(2 ^ 63 : Int) ∨
        (2 ^ 63 : Int) ≤ -(digitsToNat cs : Int)) := by
      push_neg
      constructor
      · push_cast
        omega
      · have h0 : (0 : Int) ≤ (digitsToNat cs : Int) := Int.natCast_nonneg _
        omega
    have hscan : sscanfInt s = some (-(digitsToNat cs : Int)) := by
      unfold sscanfInt
      rw [hs]
      have hdw : List.dropWhile (fun c => c == ' ' || c == '\t') ('-' :: cs)
          = '-' :: cs := by
        simp [List.dropWhile_cons]
      rw [hdw]
      simp only [sscanfIntAux, if_pos rfl]
      unfold scanDigits
      simp only [takeWhile_all_digits cs hdig, hne2, Bool.false_eq_true,
        if_false, if_true]
      rw [if_neg hv1]
    have hlt : -(digitsToNat cs : Int) < 0 := by
      have h0 : (0 : Int) < (digitsToNat cs : Int) := by
        exact_mod_cast Nat.pos_of_ne_zero hnz
      omega
    unfold parseUID
    rw [hscan]
    show (if -(digitsToNat cs : Int) < 0 then
        GoVal.vint (-(digitsToNat cs : Int)) else GoVal.vstr s)
      = GoVal.vint (negIntVal s)
    rw [if_pos hlt]
    unfold negIntVal
    rw [hs]
    simp

/-- C1 counterexample: "-1abc" is not a numeric negative-integer
string, yet the built delete-block record carries the integer -1 in its
uid field instead of the unchanged string, because fmt.Sscanf with %d
ignores the trailing characters. -/
theorem parseuid_trailing_characters :
    isNegIntString "-1abc" = false ∧
    getField (getField (lastBuilt (NewBatchBuilder.DeleteBlock "-1abc")) "block")
      "uid" = .vint (-1) ∧
    getField (getField (lastBuilt (NewBatchBuilder.DeleteBlock "-1abc")) "block")
      "uid" ≠ .vstr "-1abc" :=
  ⟨rfl, rfl, by
    intro hEq
    have h2 : GoVal.vint (-1) = GoVal.vstr "-1abc" := hEq
    exact GoVal.noConfusion h2⟩

/-- C1 amended: every UID-bearing field the builder emits goes through
parseUID, which converts the string to the scanned integer whenever
fmt.Sscanf %d reads a negative value from its front (so every proper
negative-integer string within the int64 range is converted, but also
strings such as "-1abc" whose trailing characters are ignored), and
passes the string through unchanged when the scan fails or is
nonnegative; in particular a CreatePage followed by a CreateBlock whose
ParentUID is the returned handle builds a second record whose location
parent-uid is the integer -1, not the string "-1". -/
theorem builder_uid_fields_parseUID :
    (∀ (b : BatchBuilder) (uid : String) (opts : BlockOptions),
      getField (getField (lastBuilt (b.UpdateBlock uid opts)) "block") "uid"
        = parseUID uid) ∧
    (∀ (b : BatchBuilder) (uid : String) (opts : PageOptions),
      getField (getField (lastBuilt (b.UpdatePage uid opts)) "page") "uid"
        = parseUID uid) ∧
    (∀ (b : BatchBuilder) (uid : String) (loc : Location),
      getField (getField (lastBuilt (b.MoveBlock uid loc)) "block") "uid"
        = parseUID uid) ∧
    (∀ (b : BatchBuilder) (uid : String),
      getField (getField (lastBuilt (b.DeleteBlock uid)) "block") "uid"
        = parseUID uid) ∧
    (∀ (b : BatchBuilder) (uid : String),
      getField (getField (lastBuilt (b.DeletePage uid)) "page") "uid"
        = parseUID uid) ∧
    (∀ (b : BatchBuilder) (loc : Location) (opts : BlockOptions),
      loc.ParentUID ≠ "" →
      getField (getField (lastBuilt (b.CreateBlock loc opts).2) "location")
        "parent-uid" = parseUID loc.ParentUID) ∧
    (∀ (b : BatchBuilder) (uid : String) (loc : Location), loc.ParentUID ≠ "" →
      getField (getField (lastBuilt (b.MoveBlock uid loc)) "location")
        "parent-uid" = parseUID loc.ParentUID) ∧
    (∀ s : String, isNegIntString s = true →
      digitsToNat (s.toList.drop 1) ≤ 2 ^ 63 →
      parseUID s = .vint (negIntVal s)) ∧
    (∀ (s : String) (t : Int), sscanfInt s = some t → 0 ≤ t →
      parseUID s = .vstr s) ∧
    (∀ s : String, sscanfInt s = none → parseUID s = .vstr s) ∧
    (getField (getField (lastBuilt
        ((NewBatchBuilder.CreatePage { Title := "Batch Page" }).2.CreateBlock
          { ParentUID := (NewBatchBuilder.CreatePage { Title := "Batch Page" }).1,
            Order := .vstr "last" }
          { Content := "Batch block" }).2) "location") "parent-uid"
      = .vint (-1)) := by
  refine ⟨?_, ?_, ?_, ?_, ?_, ?_, ?_, parseUID_negIntString, ?_, ?_, rfl⟩
  · intro b uid opts
    have huid : ∀ m, lookupField m "uid" = some (parseUID uid) →
        lookupField (opts.ApplyToMap m) "uid" = some (parseUID uid) := by
      intro m hm
      rw [applyToMap_uid_present opts m (by simp [hm])]
      exact hm
    have h1 : lookupField (opts.ApplyToMap [("uid", parseUID uid)]) "uid"
        = some (parseUID uid) := huid _ (by simp [lookupField])
    have h2 : lookupField (opts.ApplyToMap
          (setField [("uid", parseUID uid)] "string" (.vstr opts.Content)))
        "uid" = some (parseUID uid) := huid _ (by simp [setField, lookupField])
    by_cases hc : opts.Content = "" <;>
      simp [BatchBuilder.UpdateBlock, lastBuilt_mk, getField, lookupField,
        hc, h1, h2]
  · intro b uid opts
    by_cases h1 : opts.Title = "" <;> by_cases h2 : opts.ChildrenViewType = "" <;>
      simp [BatchBuilder.UpdatePage, lastBuilt_mk, getField, lookupField,
        setField, h1, h2]
  · intro b uid loc
    simp [BatchBuilder.MoveBlock, lastBuilt_mk, getField, lookupField]
  · intro b uid
    simp [BatchBuilder.DeleteBlock, lastBuilt_mk, getField, lookupField]
  · intro b uid
    simp [BatchBuilder.DeletePage, lastBuilt_mk, getField, lookupField]
  · intro b loc opts hp
    simp [BatchBuilder.CreateBlock, BatchBuilder.allocateTempID, lastBuilt_mk,
      BatchBuilder.buildLocation, getField, lookupField, setField, hp]
  · intro b uid loc hp
    simp [BatchBuilder.MoveBlock, lastBuilt_mk, BatchBuilder.buildLocation,
      getField, lookupField, setField, hp]
  · intro s t hs ht
    unfold parseUID
    rw [hs]
    simp [Int.not_lt.mpr ht]
  · intro s hs
    unfold parseUID
    rw [hs]

/-- Witness for builder_uid_fields_parseUID: a create-block under the
tempid handle "-1" and a delete-block of a real UID. -/
theorem builder_uid_fields_parseUID_witness :
    getField (getField (lastBuilt
        (NewBatchBuilder.CreateBlock
          { ParentUID := "-1", Order := .vstr "last" } {}).2) "location")
      "parent-uid" = .vint (-1) ∧
    getField (getField (lastBuilt (NewBatchBuilder.DeleteBlock "abc")) "block")
      "uid" = .vstr "abc" := by
  constructor
  · rw [builder_uid_fields_parseUID.2.2.2.2.2.1 NewBatchBuilder
      { ParentUID := "-1", Order := .vstr "last" } {} (by decide)]
    rfl
  · rw [builder_uid_fields_parseUID.2.2.2.1 NewBatchBuilder "abc"]
    rfl

end Claims3

section Claims4

/-- C3: the generic per-record executor does not resolve tempids. A
valid create-block record whose location parent-uid is an integer fails
the string type assertion and is dispatched with the empty parent UID;
in particular replaying the two-action batch from the spec scenario
issues the second call with parent "" instead of the page UID, the
backend interface returning no UID the loop could even record. -/
theorem local_batch_no_tempid_resolution :
    (∀ (i : Nat) (action : GoVal) (blk locFields : List (String × GoVal))
        (t : Int),
      getStr action "action" = some "create-block" →
      getObj action "block" = some (.vobj blk) →
      getObj action "location" = some (.vobj locFields) →
      lookupField locFields "parent-uid" = some (.vint t) →
      execAction i action = .ok (.createBlock ""
        ((getStr (.vobj blk) "string").getD "")
        (getField (.vobj locFields) "order"))) ∧
    (∀ (title content : String) (order : GoVal),
      ExecuteBatchLocal apiOk
        (((NewBatchBuilder.CreatePage { Title := title }).2.CreateBlock
          { ParentUID := (NewBatchBuilder.CreatePage { Title := title }).1,
            Order := order }
          { Content := content }).2)
        = ([.createPage title, .createBlock "" content order], .ok ())) := by
  constructor
  · intro i action blk locFields t hact hblk hloc hpar
    unfold execAction
    rw [hact, hblk, hloc]
    have hps : getStr (.vobj locFields) "parent-uid" = none := by
      simp [getStr, hpar]
    simp [hps]
  · intro title content order
    rfl

/-- Witness for local_batch_no_tempid_resolution, applying the general
record statement to the concrete second record of the scenario. -/
theorem local_batch_no_tempid_resolution_witness :
    execAction 1 (GoVal.vobj
      [("action", .vstr "create-block"),
       ("location", .vobj [("order", .vstr "last"), ("parent-uid", .vint (-1))]),
       ("block", .vobj [("uid", .vint (-2)), ("string", .vstr "Batch block")])])
      = .ok (.createBlock "" "Batch block" (.vstr "last")) := by
  have h := local_batch_no_tempid_resolution.1 1
    (GoVal.vobj
      [("action", .vstr "create-block"),
       ("location", .vobj [("order", .vstr "last"), ("parent-uid", .vint (-1))]),
       ("block", .vobj [("uid", .vint (-2)), ("string", .vstr "Batch block")])])
    [("uid", .vint (-2)), ("string", .vstr "Batch block")]
    [("order", .vstr "last"), ("parent-uid", .vint (-1))]
    (-1) rfl rfl rfl rfl
  exact h

/-- A prefix of records that replays cleanly: each record validates to
a call and the backend accepts each call. -/
def goodSeq (api : LocalCall → Except String Unit) :
    Nat → List GoVal → List LocalCall → Prop
  | _, [], [] => True
  | i, a :: as, c :: cs =>
    execAction i a = .ok c ∧ api c = .ok () ∧ goodSeq api (i + 1) as cs
  | _, _, _ => False

/-- Replay runs a clean prefix and continues after it. -/
theorem runBatch_append (api : LocalCall → Except String Unit)
    (pre : List GoVal) :
    ∀ (cs : List LocalCall) (i : Nat) (rest : List GoVal),
    goodSeq api i pre cs →
    runBatch api i (pre ++ rest)
      = (cs ++ (runBatch api (i + pre.length) rest).1,
         (runBatch api (i + pre.length) rest).2) := by
  induction pre with
  | nil =>
    intro cs i rest h
    cases cs with
    | nil => simp [runBatch]
    | cons c cs => exact absurd h (by simp [goodSeq])
  | cons a as ih =>
    intro cs i rest h
    cases cs with
    | nil => exact absurd h (by simp [goodSeq])
    | cons c cs =>
      obtain ⟨h1, h2, h3⟩ := h
      have harith : i + (a :: as).length = i + 1 + as.length := by
        simp [List.length_cons]
        omega
      rw [harith]
      simp [runBatch, h1, h2, ih cs (i + 1) rest h3]

/-- Every validation error of the executor embeds its record index. -/
theorem execAction_error_index (i : Nat) (a : GoVal) (e : BatchErr)
    (h : execAction i a = .error e) : e.indexOf = some i := by
  unfold execAction at h
  repeat' split at h
  all_goals simp_all [BatchErr.indexOf]
  all_goals subst e
  all_goals rfl

/-- Replay of a fully clean list succeeds with exactly those calls. -/
theorem runBatch_ok_of_good (api : LocalCall → Except String Unit)
    (as : List GoVal) (cs : List LocalCall) (i : Nat)
    (h : goodSeq api i as cs) :
    runBatch api i as = (cs, .ok ()) := by
  have := runBatch_append api as cs i [] h
  simpa [runBatch] using this

/-- Replay succeeds only when the whole list is clean. -/
theorem runBatch_ok_iff (api : LocalCall → Except String Unit)
    (as : List GoVal) :
    ∀ i : Nat, (runBatch api i as).2 = .ok () ↔ ∃ cs, goodSeq api i as cs := by
  induction as with
  | nil =>
    intro i
    constructor
    · intro _
      exact ⟨[], trivial⟩
    · intro _
      rfl
  | cons a as ih =>
    intro i
    constructor
    · intro h
      unfold runBatch at h
      rcases hx : execAction i a with e | c
      · rw [hx] at h
        simp at h
      · rw [hx] at h
        rcases hy : api c with e | u
        · simp [hy] at h
        · simp [hy] at h
          obtain ⟨cs, hcs⟩ := (ih (i + 1)).mp h
          cases u
          exact ⟨c :: cs, hx, hy, hcs⟩
    · rintro ⟨cs, hcs⟩
      cases cs with
      | nil => exact absurd hcs (by simp [goodSeq])
      | cons c cs =>
        obtain ⟨h1, h2, h3⟩ := hcs
        rw [runBatch_ok_of_good api (a :: as) (c :: cs) i ⟨h1, h2, h3⟩]

/-- C4 amended: local replay dispatches the built records strictly in
list order and stops at the first failure, leaving the already applied
calls in place (they are exactly the dispatched trace, with no undo).
A record that fails validation aborts with an error embedding its
0-based index; a dispatched call that fails aborts with the underlying
backend error passed through unchanged, which carries no index.
ExecuteBatch returns success exactly when every record validates and
every dispatched call succeeds. -/
theorem local_batch_failure_semantics :
    (∀ (api : LocalCall → Except String Unit) (b : BatchBuilder),
      (ExecuteBatchLocal api b).2 = .ok () ↔ ∃ cs, goodSeq api 0 b.Build cs) ∧
    (∀ (api : LocalCall → Except String Unit) (as : List GoVal)
        (cs : List LocalCall), goodSeq api 0 as cs →
      runBatch api 0 as = (cs, .ok ())) ∧
    (∀ (api : LocalCall → Except String Unit) (pre : List GoVal)
        (cs : List LocalCall) (a : GoVal) (rest : List GoVal) (e : BatchErr),
      goodSeq api 0 pre cs → execAction pre.length a = .error e →
      runBatch api 0 (pre ++ a :: rest) = (cs, .error e) ∧
      e.indexOf = some pre.length) ∧
    (∀ (api : LocalCall → Except String Unit) (pre : List GoVal)
        (cs : List LocalCall) (a : GoVal) (rest : List GoVal) (c : LocalCall)
        (m : String),
      goodSeq api 0 pre cs → execAction pre.length a = .ok c →
      api c = .error m →
      runBatch api 0 (pre ++ a :: rest) = (cs ++ [c], .error (.apiErr m)) ∧
      BatchErr.indexOf (.apiErr m) = none) := by
  refine ⟨?_, fun api as cs h => runBatch_ok_of_good api as cs 0 h, ?_, ?_⟩
  · intro api b
    exact runBatch_ok_iff api b.Build 0
  · intro api pre cs a rest e hpre hex
    rw [runBatch_append api pre cs 0 (a :: rest) hpre]
    have hfail : runBatch api (0 + pre.length) (a :: rest) = ([], .error e) := by
      rw [Nat.zero_add]
      unfold runBatch
      rw [hex]
    rw [hfail]
    exact ⟨by simp, execAction_error_index pre.length a e hex⟩
  · intro api pre cs a rest c m hpre hex hapi
    rw [runBatch_append api pre cs 0 (a :: rest) hpre]
    have hfail : runBatch api (0 + pre.length) (a :: rest)
        = ([c], .error (.apiErr m)) := by
      rw [Nat.zero_add]
      unfold runBatch
      rw [hex]
      simp [hapi]
    rw [hfail]
    exact ⟨rfl, rfl⟩

/-- A backend on which every dispatched call fails. -/
def apiBoom : LocalCall → Except String Unit := fun _ => .error "boom"

/-- Witness for local_batch_failure_semantics on a concrete two-record
batch whose second dispatched call fails. -/
theorem local_batch_failure_semantics_witness :
    runBatch (fun c => match c with
        | .createPage _ => .ok ()
        | _ => .error "boom") 0
      (NewBatchBuilder.CreatePage { Title := "T" }).2.Build
      = ([.createPage "T"], .ok ()) := by
  have h := local_batch_failure_semantics.2.1
    (fun c => match c with
      | .createPage _ => .ok ()
      | _ => .error "boom")
    (NewBatchBuilder.CreatePage { Title := "T" }).2.Build
    [.createPage "T"]
    (by exact ⟨rfl, rfl, trivial⟩)
  exact h

/-- C4 counterexample: when the dispatched single-action call fails,
ExecuteBatch returns the backend error unchanged; the surfaced error
carries no 0-based action index, against the claim. -/
theorem local_batch_error_lacks_index :
    (ExecuteBatchLocal apiBoom (NewBatchBuilder.CreatePage { Title := "T" }).2).2
      = .error (.apiErr "boom") ∧
    BatchErr.indexOf (.apiErr "boom") = none :=
  ⟨rfl, rfl⟩

end Claims4

section Claims5

theorem retryLoop_ok (rs : Nat → Except CloudErr String) (f a bo : Nat)
    (sl : List Nat) (s : String) (h : rs a = .ok s) :
    retryLoop rs (f + 1) a bo sl = (.ok s, a + 1, sl) := by
  cases f with
  | zero => unfold retryLoop; rw [h]
  | succ f => unfold retryLoop; rw [h]

theorem retryLoop_stop (rs : Nat → Except CloudErr String) (f a bo : Nat)
    (sl : List Nat) (e : CloudErr) (h : rs a = .error e)
    (hn : isRateLimitErr e = false) :
    retryLoop rs (f + 1) a bo sl = (.error e, a + 1, sl) := by
  cases f with
  | zero => unfold retryLoop; rw [h]; simp [hn]
  | succ f => unfold retryLoop; rw [h]; simp [hn]

theorem retryLoop_rl_last (rs : Nat → Except CloudErr String) (a bo : Nat)
    (sl : List Nat) (e : CloudErr) (h : rs a = .error e)
    (hrl : isRateLimitErr e = true) :
    retryLoop rs 1 a bo sl
      = (.error (.rateLimit "rate limit exceeded after retries"), a + 1, sl) := by
  unfold retryLoop
  rw [h]
  simp [hrl]

theorem retryLoop_rl_step (rs : Nat → Except CloudErr String) (f a bo : Nat)
    (sl : List Nat) (e : CloudErr) (h : rs a = .error e)
    (hrl : isRateLimitErr e = true) :
    retryLoop rs (f + 2) a bo sl
      = retryLoop rs (f + 1) (a + 1) (bo * 2) (sl ++ [bo]) := by
  conv_lhs => unfold retryLoop
  rw [h]
  simp [hrl]

theorem isRateLimitErr_exists (e : CloudErr) (h : isRateLimitErr e = true) :
    ∃ m, e = .rateLimit m := by
  cases e <;> simp_all [isRateLimitErr]

/-- The attempt counter grows by at most the remaining fuel. -/
theorem retryLoop_attempts_le (rs : Nat → Except CloudErr String) :
    ∀ (f a bo : Nat) (sl : List Nat),
    (retryLoop rs f a bo sl).2.1 ≤ a + f := by
  intro f
  induction f using Nat.strong_induction_on with
  | _ f ih =>
    intro a bo sl
    match f with
    | 0 => simp [retryLoop]
    | 1 =>
      rcases h : rs a with e | s
      · rcases hb : isRateLimitErr e with _ | _
        · rw [retryLoop_stop rs 0 a bo sl e h hb]
        · rw [retryLoop_rl_last rs a bo sl e h hb]
      · rw [retryLoop_ok rs 0 a bo sl s h]
    | f + 2 =>
      rcases h : rs a with e | s
      · rcases hb : isRateLimitErr e with _ | _
        · rw [retryLoop_stop rs (f + 1) a bo sl e h hb]
          exact Nat.add_le_add_left (by omega) a
        · rw [retryLoop_rl_step rs f a bo sl e h hb]
          have := ih (f + 1) (by omega) (a + 1) (bo * 2) (sl ++ [bo])
          omega
      · rw [retryLoop_ok rs (f + 1) a bo sl s h]
        exact Nat.add_le_add_left (by omega) a

/-- Every attempt that is not the last one was rate-limited. -/
theorem retryLoop_only_rl (rs : Nat → Except CloudErr String) :
    ∀ (f a bo : Nat) (sl : List Nat) (i : Nat), a ≤ i →
    i + 1 < (retryLoop rs f a bo sl).2.1 → ∃ m, rs i = .error (.rateLimit m) := by
  intro f
  induction f using Nat.strong_induction_on with
  | _ f ih =>
    intro a bo sl i hai hlt
    match f, hlt with
    | 0, hlt => simp [retryLoop] at hlt; omega
    | 1, hlt =>
      rcases h : rs a with e | s
      · rcases hb : isRateLimitErr e with _ | _
        · rw [retryLoop_stop rs 0 a bo sl e h hb] at hlt; simp at hlt; omega
        · rw [retryLoop_rl_last rs a bo sl e h hb] at hlt; simp at hlt; omega
      · rw [retryLoop_ok rs 0 a bo sl s h] at hlt; simp at hlt; omega
    | f + 2, hlt =>
      rcases h : rs a with e | s
      · rcases hb : isRateLimitErr e with _ | _
        · rw [retryLoop_stop rs (f + 1) a bo sl e h hb] at hlt
          simp at hlt
          omega
        · rcases Nat.eq_or_lt_of_le hai with heq | hgt
          · subst heq
            obtain ⟨m, hm⟩ := isRateLimitErr_exists e hb
            exact ⟨m, by rw [h, hm]⟩
          · rw [retryLoop_rl_step rs f a bo sl e h hb] at hlt
            exact ih (f + 1) (by omega) (a + 1) (bo * 2) (sl ++ [bo]) i hgt hlt
      · rw [retryLoop_ok rs (f + 1) a bo sl s h] at hlt
        simp at hlt
        omega

/-- C6: the retry wrapper makes at most four total attempts; every
attempt that was followed by another one had failed with a rate-limit
error, so only rate limiting is retried; a responder that rate-limits
every attempt yields the exhaustion RateLimitError after exactly four
attempts with sleeps of 10, 20 and 40 seconds between attempts; a first
response that is a success or any other error classification is
returned immediately after a single attempt with no sleep. -/
theorem retry_policy (rs : Nat → Except CloudErr String) :
    (callWithRetry rs).2.1 ≤ 4 ∧
    (∀ i, i + 1 < (callWithRetry rs).2.1 → ∃ m, rs i = .error (.rateLimit m)) ∧
    ((∀ i, i < 4 → ∃ m, rs i = .error (.rateLimit m)) →
      callWithRetry rs
        = (.error (.rateLimit "rate limit exceeded after retries"), 4,
           [10, 20, 40])) ∧
    (∀ e, rs 0 = .error e → isRateLimitErr e = false →
      callWithRetry rs = (.error e, 1, [])) ∧
    (∀ s, rs 0 = .ok s → callWithRetry rs = (.ok s, 1, [])) := by
  refine ⟨?_, ?_, ?_, ?_, ?_⟩
  · exact retryLoop_attempts_le rs 4 0 10 []
  · exact fun i => retryLoop_only_rl rs 4 0 10 [] i (Nat.zero_le i)
  · intro hall
    obtain ⟨m0, h0⟩ := hall 0 (by omega)
    obtain ⟨m1, h1⟩ := hall 1 (by omega)
    obtain ⟨m2, h2⟩ := hall 2 (by omega)
    obtain ⟨m3, h3⟩ := hall 3 (by omega)
    have e1 : callWithRetry rs = retryLoop rs 3 1 20 [10] := by
      show retryLoop rs (MaxRetries + 1) 0 InitialBackoffSec [] = _
      rw [show MaxRetries + 1 = 2 + 2 from rfl,
        show InitialBackoffSec = 10 from rfl,
        retryLoop_rl_step rs 2 0 10 [] _ h0 rfl]
      simp
    have e2 : callWithRetry rs = retryLoop rs 2 2 40 [10, 20] := by
      rw [e1, show (3 : Nat) = 1 + 2 from rfl,
        retryLoop_rl_step rs 1 1 20 [10] _ h1 rfl]
      simp
    have e3 : callWithRetry rs = retryLoop rs 1 3 80 [10, 20, 40] := by
      rw [e2, show (2 : Nat) = 0 + 2 from rfl,
        retryLoop_rl_step rs 0 2 40 [10, 20] _ h2 rfl]
      simp
    rw [e3, retryLoop_rl_last rs 3 80 [10, 20, 40] _ h3 rfl]
  · intro e he hne
    unfold callWithRetry MaxRetries InitialBackoffSec
    exact retryLoop_stop rs 3 0 10 [] e he hne
  · intro s hs
    unfold callWithRetry MaxRetries InitialBackoffSec
    exact retryLoop_ok rs 3 0 10 [] s hs

/-- A responder that rate-limits every attempt. -/
def always429 : Nat → Except CloudErr String :=
  fun _ => .error (.rateLimit "rate limit exceeded: body")

/-- Witness for retry_policy: under always429, exactly four attempts,
the exhaustion error and the three backoff sleeps. -/
theorem retry_policy_witness :
    callWithRetry always429
      = (.error (.rateLimit "rate limit exceeded after retries"), 4,
         [10, 20, 40]) :=
  (retry_policy always429).2.2.1 (fun _ _ => ⟨"rate limit exceeded: body", rfl⟩)

end Claims5

section Claims6

/-- C7 counterexample: a non-200 response whose body is valid JSON with
success true and no error field yields the plain formatted status
error, which is not a LocalAPIError, against the claim. -/
theorem local_nonexplicit_error_not_localapi :
    handleLocalResponse 500 "sbody" (.parsed true "" "") = .error (.statusOnly 500) ∧
    isLocalAPIError (.statusOnly 500) = false :=
  ⟨rfl, rfl⟩

/-- C7 amended: a body with success false yields a LocalAPIError
carrying the message; a non-200 with valid JSON, success true and a
non-empty error yields a LocalAPIError with that message, while with an
empty error it yields a plain generic status error that is not a
LocalAPIError; a malformed body on a non-200 yields the generic
transport error embedding the raw status and body, and on a 200 the
parse-failure error; IsResponseTimeout holds exactly on the message
"Response timeout". -/
theorem local_response_errors :
    (∀ (st : Nat) (body err res : String),
      handleLocalResponse st body (.parsed false err res)
        = .error (.localAPI err)) ∧
    (∀ (st : Nat) (body err res : String), st ≠ 200 → err ≠ "" →
      handleLocalResponse st body (.parsed true err res)
        = .error (.localAPI err)) ∧
    (∀ (st : Nat) (body res : String), st ≠ 200 →
      handleLocalResponse st body (.parsed true "" res)
        = .error (.statusOnly st) ∧
      isLocalAPIError (.statusOnly st) = false) ∧
    (∀ (st : Nat) (body : String), st ≠ 200 →
      handleLocalResponse st body .malformed
        = .error (.statusWithBody st body)) ∧
    (∀ body : String,
      handleLocalResponse 200 body .malformed = .error .parseFailed) ∧
    (∀ body err res : String,
      handleLocalResponse 200 body (.parsed true err res) = .ok res) ∧
    (∀ msg : String, IsResponseTimeout msg = true ↔ msg = "Response timeout") := by
  refine ⟨?_, ?_, ?_, ?_, ?_, ?_, ?_⟩
  · intro st body err res
    simp [handleLocalResponse]
  · intro st body err res hst herr
    simp [handleLocalResponse, hst, herr]
  · intro st body res hst
    exact ⟨by simp [handleLocalResponse, hst], rfl⟩
  · intro st body hst
    simp [handleLocalResponse, hst]
  · intro body
    simp [handleLocalResponse]
  · intro body err res
    simp [handleLocalResponse]
  · intro msg
    simp [IsResponseTimeout]

/-- Witness for local_response_errors. -/
theorem local_response_errors_witness :
    handleLocalResponse 200 "sbody" (.parsed false "Response timeout" "")
      = .error (.localAPI "Response timeout") ∧
    handleLocalResponse 503 "sbody" .malformed
      = .error (.statusWithBody 503 "sbody") ∧
    IsResponseTimeout "Response timeout" = true :=
  ⟨local_response_errors.1 200 "sbody" "Response timeout" "",
   local_response_errors.2.2.2.1 503 "sbody" (by decide),
   (local_response_errors.2.2.2.2.2.2 "Response timeout").mpr rfl⟩

end Claims6

section Claims7

theorem lookupAssoc_set_self (m : List (String × String)) (k v : String) :
    lookupAssoc (setAssoc m k v) k = some v := by
  induction m with
  | nil => simp [setAssoc, lookupAssoc]
  | cons kv rest ih =>
    obtain ⟨k0, v0⟩ := kv
    by_cases h0 : k0 = k <;> simp [setAssoc, lookupAssoc, h0, ih]

/-- The client after the redirect handler stored the rewritten peer URL
for its graph name. -/
def withPeer (c : Client) (peer port : String) : Client :=
  { c with redirectCache :=
      setAssoc c.redirectCache c.graphName (peerBase peer port) }

/-- A call whose URL answers 200 is a single round trip returning the
body, leaving the client unchanged. -/
theorem callCtx_ok_step (net : String → HttpResp) (fuel : Nat) (c : Client)
    (path loc2 body2 : String)
    (h : net (effectiveBase c ++ path) = ⟨200, loc2, body2⟩) :
    callCtxCloud net (fuel + 1) c path
      = (c, [effectiveBase c ++ path], .ok body2) := by
  unfold callCtxCloud
  simp [h]

/-- A call whose URL answers 307 or 308 with a parsable peer Location
caches the rewritten URL and recurses, recording the first request. -/
theorem callCtx_redirect_step (net : String → HttpResp) (fuel : Nat)
    (c : Client) (path : String) (st : Nat) (loc peer port body0 : String)
    (hst : st = 307 ∨ st = 308)
    (h1 : net (effectiveBase c ++ path) = ⟨st, loc, body0⟩)
    (hloc : loc ≠ "") (hparse : parsePeerRedirect loc = some (peer, port)) :
    callCtxCloud net (fuel + 1) c path
      = ((callCtxCloud net fuel (withPeer c peer port) path).1,
         (effectiveBase c ++ path)
           :: (callCtxCloud net fuel (withPeer c peer port) path).2.1,
         (callCtxCloud net fuel (withPeer c peer port) path).2.2) := by
  rcases hrec : callCtxCloud net fuel (withPeer c peer port) path
    with ⟨c2, trace, r⟩
  simp only [withPeer] at hrec
  rcases hst with rfl | rfl <;>
  · unfold callCtxCloud
    simp [h1, hloc, hparse, withPeer, hrec]

/-- C5: on a 307 or 308 response whose Location header matches the peer
pattern, the client rewrites the base URL to the peer address, caches
it for the graph name, and retries exactly once against the new URL,
succeeding when that URL answers 200; every later call on the client
returned by that exchange goes straight to the cached URL in a single
round trip, with no further redirect. -/
theorem redirect_caching (net : String → HttpResp) (c : Client) (path : String)
    (st : Nat) (loc peer port body0 loc2 body2 : String)
    (hfresh : lookupAssoc c.redirectCache c.graphName = none)
    (hst : st = 307 ∨ st = 308)
    (h1 : net (c.baseURL ++ path) = ⟨st, loc, body0⟩)
    (hparse : parsePeerRedirect loc = some (peer, port))
    (h2 : net (peerBase peer port ++ path) = ⟨200, loc2, body2⟩) :
    callCtxCloud net 2 c path
      = (withPeer c peer port,
         [c.baseURL ++ path, peerBase peer port ++ path],
         .ok body2) ∧
    (∀ (path2 : String) (fuel : Nat) (loc3 body3 : String),
      net (peerBase peer port ++ path2) = ⟨200, loc3, body3⟩ →
      callCtxCloud net (fuel + 1) (callCtxCloud net 2 c path).1 path2
        = ((callCtxCloud net 2 c path).1,
           [peerBase peer port ++ path2], .ok body3)) := by
  have hloc : loc ≠ "" := by
    intro h
    rw [h] at hparse
    simp [parsePeerRedirect, findPeer] at hparse
  have hbase : effectiveBase c = c.baseURL := by
    simp [effectiveBase, hfresh]
  have heff : effectiveBase (withPeer c peer port) = peerBase peer port := by
    simp [effectiveBase, withPeer, lookupAssoc_set_self]
  have hok : callCtxCloud net 1 (withPeer c peer port) path
      = (withPeer c peer port,
         [effectiveBase (withPeer c peer port) ++ path], .ok body2) :=
    callCtx_ok_step net 0 _ path loc2 body2 (by rw [heff]; exact h2)
  have hmain : callCtxCloud net 2 c path
      = (withPeer c peer port,
         [c.baseURL ++ path, peerBase peer port ++ path], .ok body2) := by
    show callCtxCloud net (1 + 1) c path = _
    rw [callCtx_redirect_step net 1 c path st loc peer port body0 hst
      (by rw [hbase]; exact h1) hloc hparse, hok]
    simp [hbase, heff]
  refine ⟨hmain, ?_⟩
  intro path2 fuel loc3 body3 h3
  have hstep := callCtx_ok_step net fuel (withPeer c peer port)
    path2 loc3 body3 (by rw [heff]; exact h3)
  rw [hmain]
  simp [hstep, heff]

/-- A mock cloud backend: the default URL 307-redirects to a peer, the
rewritten peer URL serves both paths directly. -/
def mockNet : String → HttpResp := fun url =>
  if url = "https://api.roamresearch.com/api/graph/g/q" then
    { status := 307, location := "https://peer-7.internal:9443/api/graph/g/q",
      body := "" }
  else if url = "https://peer-7.api.roamresearch.com:9443/api/graph/g/q" then
    { status := 200, location := "", body := "P1" }
  else if url = "https://peer-7.api.roamresearch.com:9443/api/graph/g/pull" then
    { status := 200, location := "", body := "P2" }
  else { status := 500, location := "", body := "unexpected" }

/-- A fresh client for graph g. -/
def mockClient : Client :=
  { baseURL := "https://api.roamresearch.com", graphName := "g",
    redirectCache := [] }

/-- Witness for redirect_caching: the first call follows the redirect
once and caches the peer URL; a second unrelated call on the resulting
client is a single round trip to the cached URL. -/
theorem redirect_caching_witness :
    callCtxCloud mockNet 2 mockClient "/api/graph/g/q"
      = (withPeer mockClient "peer-7" "9443",
         ["https://api.roamresearch.com/api/graph/g/q",
          "https://peer-7.api.roamresearch.com:9443/api/graph/g/q"],
         .ok "P1") ∧
    callCtxCloud mockNet 3 (callCtxCloud mockNet 2 mockClient "/api/graph/g/q").1
        "/api/graph/g/pull"
      = ((callCtxCloud mockNet 2 mockClient "/api/graph/g/q").1,
         ["https://peer-7.api.roamresearch.com:9443/api/graph/g/pull"],
         .ok "P2") := by
  have h := redirect_caching mockNet mockClient "/api/graph/g/q" 307
    "https://peer-7.internal:9443/api/graph/g/q" "peer-7" "9443" "" "" "P1"
    rfl (Or.inl rfl) rfl rfl rfl
  exact ⟨h.1, h.2 "/api/graph/g/pull" 2 "" "P2" rfl⟩

end Claims7

end Roam
